import Mathlib

/-!
Verification of the placeholder formatting engine of the `weneda` repository
(`src/weneda/placeholders.py`).  Text is modelled as `List Char`; the in-place
buffer rewriting of `Formatter.format` is modelled as a fuel-based scan loop on
an explicit scan state, instrumented with a trace of the resolver invocations
it performs.  The constructor validation of `Formatter.__init__` and the
dispatch of `Formatter.process` are modelled separately.
-/

namespace Weneda

/-- Python slice `l[start : start + len]` on a list of characters. -/
def slice (l : List Char) (start len : Nat) : List Char :=
  (l.drop start).take len

/-- Python `current[: index - d] + current[index :]`: deletion of the escape
token of length `d` that ends right before position `index` (lines 134-137,
153-156 and 192-195 of `placeholders.py`). -/
def dropEsc (l : List Char) (index d : Nat) : List Char :=
  l.take (index - d) ++ l.drop index

/-- A resolver function, the model of the bound `self.process` that
`Formatter.format` awaits: raw body and depth in, optional replacement out
(`None` keeps the original placeholder). -/
abbrev Resolver := List Char → Nat → Option (List Char)

/-- The delimiter attributes stored by `Formatter.__init__`: `opener`,
`closer` and the optional `escape` token. -/
structure Config where
  opener : List Char
  closer : List Char
  escape : Option (List Char)

/-- The escape token as `Formatter.format` sees it: Python treats both `None`
and the empty string as "no escape" (`if escape:` is falsy for both), so this
collapses `none` to `[]`. -/
def Config.esc (cfg : Config) : List Char := cfg.escape.getD []

/-- The default configuration `Formatter('{', '}', escape='\\')`. -/
def defaultConfig : Config :=
  { opener := ['\x7b'], closer := ['\x7d'], escape := some ['\\'] }

/-- The transient scan state of one `Formatter.format` call: the working
buffer `current`, the `prev_escape` flag, the stack of opener positions, the
memoization `cache`, and the scan `index`.  The `trace` field is pure
instrumentation: it records, in order, every `(raw body, depth)` pair on which
the resolver is actually invoked. -/
structure ScanState where
  current : List Char
  prevEscape : Bool
  stack : List Nat
  cache : List (List Char × List Char)
  trace : List (List Char × Nat)
  index : Nat

/-- The replacement computed at lines 174-178 of `placeholders.py`: the
resolver value if there is one, otherwise the literal reconstruction
`opener + body + closer`. -/
def replOf (cfg : Config) (ph : List Char) (v : Option (List Char)) : List Char :=
  v.getD (cfg.opener ++ ph ++ cfg.closer)

/-- The `while index < len(current)` loop of `Formatter.format`
(lines 129-198 of `placeholders.py`), fuel-based.  Branch order and branch
bodies mirror the Python `if`/`elif` chain exactly. -/
def formatLoop (cfg : Config) (p : Resolver) : Nat → ScanState → ScanState
  | 0, st => st
  | fuel + 1, st =>
    if st.index < st.current.length then
      -- check for escape string
      if cfg.esc ≠ [] ∧ slice st.current st.index cfg.esc.length = cfg.esc then
        if st.prevEscape then
          -- previously found escape string, keep only one
          formatLoop cfg p fuel { st with
            current := dropEsc st.current st.index cfg.esc.length,
            prevEscape := false,
            index := st.index + cfg.esc.length }
        else
          formatLoop cfg p fuel { st with
            prevEscape := true,
            index := st.index + cfg.esc.length }
      -- check for opener; if opener and closer are the same and there is an
      -- opened brace, fall through to the closer branch
      else if slice st.current st.index cfg.opener.length = cfg.opener ∧
              ¬(cfg.opener = cfg.closer ∧ st.stack ≠ []) then
        if st.prevEscape then
          formatLoop cfg p fuel { st with
            current := dropEsc st.current st.index cfg.esc.length,
            prevEscape := false,
            index := st.index + cfg.opener.length }
        else
          formatLoop cfg p fuel { st with
            stack := st.index :: st.stack,
            index := st.index + cfg.opener.length }
      -- check for closer
      else if slice st.current st.index cfg.closer.length = cfg.closer then
        if st.prevEscape then
          formatLoop cfg p fuel { st with
            current := dropEsc st.current st.index cfg.esc.length,
            prevEscape := false }
        else
          match st.stack with
          | [] => formatLoop cfg p fuel { st with index := st.index + cfg.closer.length }
          | openIndex :: rest =>
            let ph := slice st.current (openIndex + cfg.opener.length)
                        (st.index - (openIndex + cfg.opener.length))
            match st.cache.lookup ph with
            | some repl =>
              formatLoop cfg p fuel { st with
                current := st.current.take openIndex ++ repl ++
                           st.current.drop (st.index + cfg.closer.length),
                stack := rest,
                index := openIndex + repl.length }
            | none =>
              let repl := replOf cfg ph (p ph rest.length)
              formatLoop cfg p fuel { st with
                current := st.current.take openIndex ++ repl ++
                           st.current.drop (st.index + cfg.closer.length),
                stack := rest,
                cache := (ph, repl) :: st.cache,
                trace := st.trace ++ [(ph, rest.length)],
                index := openIndex + repl.length }
      -- skip any other character
      else
        formatLoop cfg p fuel { st with index := st.index + 1 }
    else st

/-- The initial scan state of a `Formatter.format` call. -/
def initState (text : List Char) : ScanState :=
  { current := text, prevEscape := false, stack := [], cache := [], trace := [], index := 0 }

/-- Fuel that provably suffices for the scan loop to run to completion:
every iteration strictly decreases `2 * (length - index) + prevEscape`. -/
def formatFuel (text : List Char) : Nat := 2 * text.length + 1

/-- `Formatter.format` together with its instrumentation: the final buffer and
the ordered list of `(raw body, depth)` resolver invocations. -/
def formatTrace (cfg : Config) (p : Resolver) (text : List Char) :
    List Char × List (List Char × Nat) :=
  let st := formatLoop cfg p (formatFuel text) (initState text)
  (st.current, st.trace)

/-- `Formatter.format` on character lists. -/
def format (cfg : Config) (p : Resolver) (text : List Char) : List Char :=
  (formatTrace cfg p text).1

/-- `Formatter.format` on strings. -/
def formatStr (cfg : Config) (p : Resolver) (s : String) : String :=
  ⟨format cfg p s.data⟩

/-- A `Placeholder` object as the repository builds it: the compiled match
pattern (modelled as a predicate on the raw body), the resolver callable
stored in its `process` attribute (line 88 of `placeholders.py`), and the
contents of its `func` attribute, kept as an `Option` because the attribute
may simply be absent. -/
structure PlaceholderRec where
  pattern : Option (List Char → Bool)
  procAttr : List Char → Nat → Option (List Char)
  funcAttr : Option (List Char → Nat → Option (List Char))

/-- Construction of a `Placeholder` as done at lines 86-89 of
`placeholders.py` (and by `add_placeholder`): the resolver callable is
assigned to the `process` attribute; no code path in the repository ever
assigns a `func` attribute, so `funcAttr` is `none`. -/
def mkPlaceholder (pattern : Option (List Char → Bool))
    (f : List Char → Nat → Option (List Char)) : PlaceholderRec :=
  { pattern := pattern, procAttr := f, funcAttr := none }

/-- Outcome of a Python expression that may raise `AttributeError`. -/
inductive PyResult (α : Type) where
  | ok : α → PyResult α
  | attributeError : PyResult α

/-- `Formatter.process` (lines 100-105 of `placeholders.py`): iterate the
placeholders in order; on the first one whose pattern is absent or matches
the name, return `await ph.func(name, depth)` - an attribute access that
raises `AttributeError` whenever the `func` attribute is absent; return
`None` when no placeholder matches. -/
def process (phs : List PlaceholderRec) (name : List Char) (depth : Nat) :
    PyResult (Option (List Char)) :=
  match phs with
  | [] => .ok none
  | ph :: rest =>
    if (match ph.pattern with | none => true | some m => m name) = true then
      match ph.funcAttr with
      | some f => .ok (f name depth)
      | none => .attributeError
    else process rest name depth

/-- The validation at lines 73-80 of `Formatter.__init__`: the message of the
`ValueError` it raises, or `none` when validation passes.  The checks are
performed in source order. -/
def initError (opener closer : List Char) (escape : Option (List Char)) :
    Option String :=
  if opener = [] then some "opener should be a non-empty string"
  else if closer = [] then some "closer should be a non-empty string"
  else if escape = some [] then some "escape should be a non-empty string or None"
  else if escape = some opener ∨ escape = some closer then
    some "escape should not equal to opener or closer"
  else none

/-- Outcome of `Formatter.__init__`. -/
inductive InitResult where
  | valueError : String → InitResult
  | attributeError : InitResult
  | ok : List PlaceholderRec → InitResult

/-- `Formatter.__init__` (lines 55-89 of `placeholders.py`): validation first
(lines 73-80), then the read of the class attribute `__placeholder_items__`
(line 86), which only `__init_subclass__` (lines 47-53) ever assigns; for the
base `Formatter` class the attribute is absent (`items = none`) and the read
raises `AttributeError`.  Each collected item becomes a `Placeholder` via
lines 87-88. -/
def formatterInit
    (items : Option (List (Option (List Char → Bool) × (List Char → Nat → Option (List Char)))))
    (opener closer : List Char) (escape : Option (List Char)) : InitResult :=
  match initError opener closer escape with
  | some msg => .valueError msg
  | none =>
    match items with
    | none => .attributeError
    | some fs => .ok (fs.map fun pf => mkPlaceholder pf.1 pf.2)

/-! ### Basic facts about `slice` and `dropEsc` -/

@[simp]
theorem length_slice (l : List Char) (s n : Nat) :
    (slice l s n).length = min n (l.length - s) := by
  simp [slice]

@[simp]
theorem length_dropEsc (l : List Char) (i d : Nat) :
    (dropEsc l i d).length = min (i - d) l.length + (l.length - i) := by
  simp [dropEsc]

theorem slice_append (a b : List Char) (k : Nat) :
    slice (a ++ b) a.length k = b.take k := by
  simp [slice]

theorem slice_append_of_eq (a b : List Char) {n : Nat} (h : a.length = n) (k : Nat) :
    slice (a ++ b) n k = b.take k := by
  subst h; exact slice_append a b k

theorem len_le_of_slice_eq {l t : List Char} {i : Nat} (h : slice l i t.length = t) :
    t.length ≤ l.length - i := by
  have := congrArg List.length h
  simp at this
  omega

/-! ### Step lemmas for the scan loop -/

theorem formatLoop_halt (cfg : Config) (p : Resolver) (fuel : Nat) (st : ScanState)
    (h : ¬ st.index < st.current.length) :
    formatLoop cfg p fuel st = st := by
  cases fuel <;> simp [formatLoop, h]

theorem formatLoop_esc_set (cfg : Config) (p : Resolver) (fuel : Nat) (st : ScanState)
    (hlt : st.index < st.current.length)
    (h1 : cfg.esc ≠ [] ∧ slice st.current st.index cfg.esc.length = cfg.esc)
    (hprev : st.prevEscape = false) :
    formatLoop cfg p (fuel + 1) st =
      formatLoop cfg p fuel
        { st with prevEscape := true, index := st.index + cfg.esc.length } := by
  simp only [formatLoop]
  rw [if_pos hlt, if_pos h1, if_neg (show ¬ st.prevEscape = true by simp [hprev])]

theorem formatLoop_esc_collapse (cfg : Config) (p : Resolver) (fuel : Nat) (st : ScanState)
    (hlt : st.index < st.current.length)
    (h1 : cfg.esc ≠ [] ∧ slice st.current st.index cfg.esc.length = cfg.esc)
    (hprev : st.prevEscape = true) :
    formatLoop cfg p (fuel + 1) st =
      formatLoop cfg p fuel
        { st with current := dropEsc st.current st.index cfg.esc.length,
                  prevEscape := false,
                  index := st.index + cfg.esc.length } := by
  simp only [formatLoop]
  rw [if_pos hlt, if_pos h1, if_pos hprev]

theorem formatLoop_push (cfg : Config) (p : Resolver) (fuel : Nat) (st : ScanState)
    (hlt : st.index < st.current.length)
    (h1 : ¬(cfg.esc ≠ [] ∧ slice st.current st.index cfg.esc.length = cfg.esc))
    (h2 : slice st.current st.index cfg.opener.length = cfg.opener ∧
          ¬(cfg.opener = cfg.closer ∧ st.stack ≠ []))
    (hprev : st.prevEscape = false) :
    formatLoop cfg p (fuel + 1) st =
      formatLoop cfg p fuel
        { st with stack := st.index :: st.stack, index := st.index + cfg.opener.length } := by
  simp only [formatLoop]
  rw [if_pos hlt, if_neg h1, if_pos h2, if_neg (show ¬ st.prevEscape = true by simp [hprev])]

theorem formatLoop_open_escaped (cfg : Config) (p : Resolver) (fuel : Nat) (st : ScanState)
    (hlt : st.index < st.current.length)
    (h1 : ¬(cfg.esc ≠ [] ∧ slice st.current st.index cfg.esc.length = cfg.esc))
    (h2 : slice st.current st.index cfg.opener.length = cfg.opener ∧
          ¬(cfg.opener = cfg.closer ∧ st.stack ≠ []))
    (hprev : st.prevEscape = true) :
    formatLoop cfg p (fuel + 1) st =
      formatLoop cfg p fuel
        { st with current := dropEsc st.current st.index cfg.esc.length,
                  prevEscape := false,
                  index := st.index + cfg.opener.length } := by
  simp only [formatLoop]
  rw [if_pos hlt, if_neg h1, if_pos h2, if_pos hprev]

theorem formatLoop_close_escaped (cfg : Config) (p : Resolver) (fuel : Nat) (st : ScanState)
    (hlt : st.index < st.current.length)
    (h1 : ¬(cfg.esc ≠ [] ∧ slice st.current st.index cfg.esc.length = cfg.esc))
    (h2 : ¬(slice st.current st.index cfg.opener.length = cfg.opener ∧
          ¬(cfg.opener = cfg.closer ∧ st.stack ≠ [])))
    (h3 : slice st.current st.index cfg.closer.length = cfg.closer)
    (hprev : st.prevEscape = true) :
    formatLoop cfg p (fuel + 1) st =
      formatLoop cfg p fuel
        { st with current := dropEsc st.current st.index cfg.esc.length,
                  prevEscape := false } := by
  simp only [formatLoop]
  rw [if_pos hlt, if_neg h1, if_neg h2, if_pos h3, if_pos hprev]

theorem formatLoop_close_literal (cfg : Config) (p : Resolver) (fuel : Nat) (st : ScanState)
    (hlt : st.index < st.current.length)
    (h1 : ¬(cfg.esc ≠ [] ∧ slice st.current st.index cfg.esc.length = cfg.esc))
    (h2 : ¬(slice st.current st.index cfg.opener.length = cfg.opener ∧
          ¬(cfg.opener = cfg.closer ∧ st.stack ≠ [])))
    (h3 : slice st.current st.index cfg.closer.length = cfg.closer)
    (hprev : st.prevEscape = false)
    (hstack : st.stack = []) :
    formatLoop cfg p (fuel + 1) st =
      formatLoop cfg p fuel { st with index := st.index + cfg.closer.length } := by
  simp only [formatLoop]
  rw [if_pos hlt, if_neg h1, if_neg h2, if_pos h3,
    if_neg (show ¬ st.prevEscape = true by simp [hprev]), hstack]

theorem formatLoop_close_pop_miss (cfg : Config) (p : Resolver) (fuel : Nat) (st : ScanState)
    (openIndex : Nat) (rest : List Nat) (ph repl : List Char)
    (hlt : st.index < st.current.length)
    (h1 : ¬(cfg.esc ≠ [] ∧ slice st.current st.index cfg.esc.length = cfg.esc))
    (h2 : ¬(slice st.current st.index cfg.opener.length = cfg.opener ∧
          ¬(cfg.opener = cfg.closer ∧ st.stack ≠ [])))
    (h3 : slice st.current st.index cfg.closer.length = cfg.closer)
    (hprev : st.prevEscape = false)
    (hstack : st.stack = openIndex :: rest)
    (hph : ph = slice st.current (openIndex + cfg.opener.length)
             (st.index - (openIndex + cfg.opener.length)))
    (hmiss : st.cache.lookup ph = none)
    (hrepl : repl = replOf cfg ph (p ph rest.length)) :
    formatLoop cfg p (fuel + 1) st =
      formatLoop cfg p fuel
        { st with current := st.current.take openIndex ++ repl ++
                             st.current.drop (st.index + cfg.closer.length),
                  stack := rest,
                  cache := (ph, repl) :: st.cache,
                  trace := st.trace ++ [(ph, rest.length)],
                  index := openIndex + repl.length } := by
  subst hph hrepl
  simp only [formatLoop]
  rw [if_pos hlt, if_neg h1, if_neg h2, if_pos h3,
    if_neg (show ¬ st.prevEscape = true by simp [hprev]), hstack]
  simp only [hstack, hmiss]

theorem formatLoop_close_pop_hit (cfg : Config) (p : Resolver) (fuel : Nat) (st : ScanState)
    (openIndex : Nat) (rest : List Nat) (ph repl : List Char)
    (hlt : st.index < st.current.length)
    (h1 : ¬(cfg.esc ≠ [] ∧ slice st.current st.index cfg.esc.length = cfg.esc))
    (h2 : ¬(slice st.current st.index cfg.opener.length = cfg.opener ∧
          ¬(cfg.opener = cfg.closer ∧ st.stack ≠ [])))
    (h3 : slice st.current st.index cfg.closer.length = cfg.closer)
    (hprev : st.prevEscape = false)
    (hstack : st.stack = openIndex :: rest)
    (hph : ph = slice st.current (openIndex + cfg.opener.length)
             (st.index - (openIndex + cfg.opener.length)))
    (hhit : st.cache.lookup ph = some repl) :
    formatLoop cfg p (fuel + 1) st =
      formatLoop cfg p fuel
        { st with current := st.current.take openIndex ++ repl ++
                             st.current.drop (st.index + cfg.closer.length),
                  stack := rest,
                  index := openIndex + repl.length } := by
  subst hph
  simp only [formatLoop]
  rw [if_pos hlt, if_neg h1, if_neg h2, if_pos h3,
    if_neg (show ¬ st.prevEscape = true by simp [hprev]), hstack]
  simp only [hstack, hhit]

theorem formatLoop_halt_at (cfg : Config) (p : Resolver) (fuel : Nat) (st : ScanState)
    (h : st.current.length ≤ st.index) :
    formatLoop cfg p fuel st = st :=
  formatLoop_halt cfg p fuel st (by omega)

theorem formatLoop_trace_halt (cfg : Config) (p : Resolver) (fuel : Nat) (st : ScanState)
    (h : st.current.length ≤ st.index) :
    (formatLoop cfg p fuel st).trace = st.trace := by
  rw [formatLoop_halt_at cfg p fuel st h]

theorem formatLoop_current_halt (cfg : Config) (p : Resolver) (fuel : Nat) (st : ScanState)
    (h : st.current.length ≤ st.index) :
    (formatLoop cfg p fuel st).current = st.current := by
  rw [formatLoop_halt_at cfg p fuel st h]

theorem formatLoop_other (cfg : Config) (p : Resolver) (fuel : Nat) (st : ScanState)
    (hlt : st.index < st.current.length)
    (h1 : ¬(cfg.esc ≠ [] ∧ slice st.current st.index cfg.esc.length = cfg.esc))
    (h2 : ¬(slice st.current st.index cfg.opener.length = cfg.opener ∧
          ¬(cfg.opener = cfg.closer ∧ st.stack ≠ [])))
    (h3 : ¬ slice st.current st.index cfg.closer.length = cfg.closer) :
    formatLoop cfg p (fuel + 1) st =
      formatLoop cfg p fuel { st with index := st.index + 1 } := by
  simp only [formatLoop]
  rw [if_pos hlt, if_neg h1, if_neg h2, if_neg h3]

/-! ### Derived step lemmas at a structured buffer position

These re-express the step lemmas for a buffer split into known segments,
which is the form arising when replacements have been spliced in. -/

theorem formatLoop_pop_at (cfg : Config) (p : Resolver) (fuel : Nat)
    (C P Q R : List Char) (rest : List Nat)
    (cache : List (List Char × List Char)) (trace : List (List Char × Nat))
    (idx : Nat)
    (hC : C = P ++ (cfg.opener ++ (Q ++ (cfg.closer ++ R))))
    (hidx : idx = P.length + cfg.opener.length + Q.length)
    (hcl : cfg.closer ≠ [])
    (he : cfg.esc ≠ [] → (cfg.closer ++ R).take cfg.esc.length ≠ cfg.esc)
    (ho : (cfg.closer ++ R).take cfg.opener.length = cfg.opener → cfg.opener = cfg.closer)
    (hmiss : cache.lookup Q = none) :
    formatLoop cfg p (fuel + 1)
      { current := C, prevEscape := false,
        stack := P.length :: rest, cache := cache, trace := trace,
        index := idx } =
    formatLoop cfg p fuel
      { current := P ++ replOf cfg Q (p Q rest.length) ++ R,
        prevEscape := false, stack := rest,
        cache := (Q, replOf cfg Q (p Q rest.length)) :: cache,
        trace := trace ++ [(Q, rest.length)],
        index := P.length + (replOf cfg Q (p Q rest.length)).length } := by
  subst hidx
  rw [hC, show P ++ (cfg.opener ++ (Q ++ (cfg.closer ++ R))) =
    P ++ cfg.opener ++ Q ++ cfg.closer ++ R by simp [List.append_assoc]]
  have hAlen : (P ++ cfg.opener ++ Q).length =
      P.length + cfg.opener.length + Q.length := by
    simp only [List.length_append]
  have hslice : ∀ n, slice (P ++ cfg.opener ++ Q ++ cfg.closer ++ R)
      (P.length + cfg.opener.length + Q.length) n = (cfg.closer ++ R).take n := by
    intro n
    rw [show P ++ cfg.opener ++ Q ++ cfg.closer ++ R =
      (P ++ cfg.opener ++ Q) ++ (cfg.closer ++ R) by simp [List.append_assoc]]
    exact slice_append_of_eq _ _ hAlen n
  have hclpos : 0 < cfg.closer.length := List.length_pos.mpr hcl
  have hlt : P.length + cfg.opener.length + Q.length <
      (P ++ cfg.opener ++ Q ++ cfg.closer ++ R).length := by
    simp only [List.length_append]; omega
  have h1 : ¬(cfg.esc ≠ [] ∧ slice (P ++ cfg.opener ++ Q ++ cfg.closer ++ R)
      (P.length + cfg.opener.length + Q.length) cfg.esc.length = cfg.esc) := by
    rintro ⟨hne, hs⟩
    exact he hne ((hslice _) ▸ hs)
  have h2 : ¬(slice (P ++ cfg.opener ++ Q ++ cfg.closer ++ R)
      (P.length + cfg.opener.length + Q.length) cfg.opener.length = cfg.opener ∧
      ¬(cfg.opener = cfg.closer ∧ (P.length :: rest : List Nat) ≠ [])) := by
    rintro ⟨hs, hguard⟩
    exact hguard ⟨ho ((hslice _) ▸ hs), by simp⟩
  have h3 : slice (P ++ cfg.opener ++ Q ++ cfg.closer ++ R)
      (P.length + cfg.opener.length + Q.length) cfg.closer.length = cfg.closer := by
    rw [hslice, List.take_left]
  have hph : Q = slice (P ++ cfg.opener ++ Q ++ cfg.closer ++ R)
      (P.length + cfg.opener.length)
      (P.length + cfg.opener.length + Q.length - (P.length + cfg.opener.length)) := by
    have h4 : P.length + cfg.opener.length + Q.length - (P.length + cfg.opener.length)
        = Q.length := by omega
    rw [h4]
    rw [show P ++ cfg.opener ++ Q ++ cfg.closer ++ R =
      (P ++ cfg.opener) ++ (Q ++ (cfg.closer ++ R)) by simp [List.append_assoc]]
    rw [slice_append_of_eq _ _ (by simp) Q.length, List.take_left]
  have htake : (P ++ cfg.opener ++ Q ++ cfg.closer ++ R).take P.length = P := by
    rw [show P ++ cfg.opener ++ Q ++ cfg.closer ++ R =
      P ++ (cfg.opener ++ (Q ++ (cfg.closer ++ R))) by simp [List.append_assoc]]
    rw [List.take_left]
  have hdrop : (P ++ cfg.opener ++ Q ++ cfg.closer ++ R).drop
      (P.length + cfg.opener.length + Q.length + cfg.closer.length) = R := by
    rw [show P ++ cfg.opener ++ Q ++ cfg.closer ++ R =
      (P ++ cfg.opener ++ Q ++ cfg.closer) ++ R by simp [List.append_assoc]]
    rw [List.drop_left' (by simp only [List.length_append])]
  rw [formatLoop_close_pop_miss cfg p fuel _ P.length rest Q
    (replOf cfg Q (p Q rest.length)) hlt h1 h2 h3 rfl rfl hph hmiss rfl, htake, hdrop]

theorem formatLoop_skip_at (cfg : Config) (p : Resolver) (fuel : Nat)
    (C A : List Char) (c : Char) (D : List Char) (pe : Bool) (stack : List Nat)
    (cache : List (List Char × List Char)) (trace : List (List Char × Nat))
    (idx : Nat)
    (hC : C = A ++ c :: D) (hidx : idx = A.length)
    (he : cfg.esc ≠ [] → (c :: D).take cfg.esc.length ≠ cfg.esc)
    (ho : (c :: D).take cfg.opener.length ≠ cfg.opener)
    (hc : (c :: D).take cfg.closer.length ≠ cfg.closer) :
    formatLoop cfg p (fuel + 1)
      { current := C, prevEscape := pe, stack := stack,
        cache := cache, trace := trace, index := idx } =
    formatLoop cfg p fuel
      { current := C, prevEscape := pe, stack := stack,
        cache := cache, trace := trace, index := idx + 1 } := by
  subst hC hidx
  have hslice : ∀ n, slice (A ++ c :: D) A.length n = (c :: D).take n :=
    fun n => slice_append_of_eq _ _ rfl n
  have hlt : A.length < (A ++ c :: D).length := by
    simp only [List.length_append, List.length_cons]; omega
  exact formatLoop_other cfg p fuel _ hlt
    (by rintro ⟨hne, hs⟩; exact he hne ((hslice _) ▸ hs))
    (by rintro ⟨hs, -⟩; exact ho ((hslice _) ▸ hs))
    (by intro hs; exact hc ((hslice _) ▸ hs))

theorem formatLoop_push_at (cfg : Config) (p : Resolver) (fuel : Nat)
    (C A D : List Char) (stack : List Nat)
    (cache : List (List Char × List Char)) (trace : List (List Char × Nat))
    (idx : Nat)
    (hC : C = A ++ D) (hidx : idx = A.length)
    (hop : cfg.opener ≠ [])
    (hD : D.take cfg.opener.length = cfg.opener)
    (hguard : ¬(cfg.opener = cfg.closer ∧ stack ≠ []))
    (he : cfg.esc ≠ [] → D.take cfg.esc.length ≠ cfg.esc) :
    formatLoop cfg p (fuel + 1)
      { current := C, prevEscape := false, stack := stack,
        cache := cache, trace := trace, index := idx } =
    formatLoop cfg p fuel
      { current := C, prevEscape := false, stack := idx :: stack,
        cache := cache, trace := trace, index := idx + cfg.opener.length } := by
  subst hC hidx
  have hslice : ∀ n, slice (A ++ D) A.length n = D.take n :=
    fun n => slice_append_of_eq _ _ rfl n
  have hDne : D ≠ [] := by
    intro hD0
    rw [hD0] at hD
    simp at hD
    exact hop hD
  have hlt : A.length < (A ++ D).length := by
    have := List.length_pos.mpr hDne
    simp only [List.length_append]; omega
  exact formatLoop_push cfg p fuel _ hlt
    (by rintro ⟨hne, hs⟩; exact he hne ((hslice _) ▸ hs))
    ⟨(hslice _) ▸ hD, hguard⟩ rfl

/-! ### General properties of the scan loop -/

theorem formatLoop_complete (cfg : Config) (p : Resolver)
    (ho : cfg.opener ≠ []) (hc : cfg.closer ≠ []) :
    ∀ fuel st, 2 * (st.current.length - st.index) + st.prevEscape.toNat < fuel →
      (formatLoop cfg p fuel st).current.length ≤ (formatLoop cfg p fuel st).index := by
  intro fuel
  induction fuel with
  | zero => intro st h; omega
  | succ n ih =>
    intro st h
    by_cases hlt : st.index < st.current.length
    case neg =>
      rw [formatLoop_halt _ _ _ _ hlt]
      omega
    case pos =>
      have hol : 0 < cfg.opener.length := List.length_pos.mpr ho
      have hcl : 0 < cfg.closer.length := List.length_pos.mpr hc
      by_cases h1 : cfg.esc ≠ [] ∧ slice st.current st.index cfg.esc.length = cfg.esc
      · have hel : 0 < cfg.esc.length := List.length_pos.mpr h1.1
        have hle : cfg.esc.length ≤ st.current.length - st.index := len_le_of_slice_eq h1.2
        cases hpe : st.prevEscape
        · rw [formatLoop_esc_set cfg p n st hlt h1 hpe]
          apply ih
          simp only [Bool.toNat_true, Bool.toNat_false]
          simp [hpe] at h
          omega
        · rw [formatLoop_esc_collapse cfg p n st hlt h1 hpe]
          apply ih
          simp only [length_dropEsc, Bool.toNat_false]
          simp [hpe] at h
          omega
      · by_cases h2 : slice st.current st.index cfg.opener.length = cfg.opener ∧
            ¬(cfg.opener = cfg.closer ∧ st.stack ≠ [])
        · have hle : cfg.opener.length ≤ st.current.length - st.index :=
            len_le_of_slice_eq h2.1
          cases hpe : st.prevEscape
          · rw [formatLoop_push cfg p n st hlt h1 h2 hpe]
            apply ih
            simp [hpe] at h
            simp [hpe]
            omega
          · rw [formatLoop_open_escaped cfg p n st hlt h1 h2 hpe]
            apply ih
            simp [hpe] at h
            simp only [length_dropEsc, Bool.toNat_false]
            omega
        · by_cases h3 : slice st.current st.index cfg.closer.length = cfg.closer
          · have hle : cfg.closer.length ≤ st.current.length - st.index :=
              len_le_of_slice_eq h3
            cases hpe : st.prevEscape
            · rcases hstk : st.stack with _ | ⟨oI, rest⟩
              · rw [formatLoop_close_literal cfg p n st hlt h1 h2 h3 hpe hstk]
                apply ih
                simp [hpe] at h
                simp [hpe]
                omega
              · rcases hlook : st.cache.lookup (slice st.current (oI + cfg.opener.length)
                    (st.index - (oI + cfg.opener.length))) with _ | repl
                · rw [formatLoop_close_pop_miss cfg p n st oI rest _ _ hlt h1 h2 h3 hpe hstk
                    rfl hlook rfl]
                  apply ih
                  simp [hpe] at h
                  simp [hpe]
                  omega
                · rw [formatLoop_close_pop_hit cfg p n st oI rest _ repl hlt h1 h2 h3 hpe hstk
                    rfl hlook]
                  apply ih
                  simp [hpe] at h
                  simp [hpe]
                  omega
            · rw [formatLoop_close_escaped cfg p n st hlt h1 h2 h3 hpe]
              apply ih
              simp [hpe] at h
              simp only [length_dropEsc, Bool.toNat_false]
              omega
          · rw [formatLoop_other cfg p n st hlt h1 h2 h3]
            apply ih
            have hbn : st.prevEscape.toNat ≤ 1 := Bool.toNat_le st.prevEscape
            simp only [] at h ⊢
            omega

/-- A decidable occurrence test: `tok` appears as a substring of `text`
starting at some position. -/
def occursIn (tok text : List Char) : Bool :=
  (List.range (text.length + 1)).any fun i => slice text i tok.length == tok

theorem not_occursIn {tok text : List Char} (h : occursIn tok text = false) :
    ∀ i, slice text i tok.length ≠ tok := by
  have htok : tok ≠ [] := by
    intro h0
    subst h0
    simp [occursIn, slice] at h
    have := h 0
    omega
  intro i hEq
  by_cases hi : i ≤ text.length
  · have hall := List.any_eq_false.mp h
    have := hall i (List.mem_range.mpr (by omega))
    rw [hEq] at this
    simp at this
  · have hnil : slice text i tok.length = [] := by
      simp [slice, List.drop_eq_nil_of_le (by omega : text.length ≤ i)]
    rw [hnil] at hEq
    exact htok hEq.symm

theorem formatLoop_keeps (cfg : Config) (p : Resolver) (text : List Char)
    (ho : ∀ i, slice text i cfg.opener.length ≠ cfg.opener)
    (hc : ∀ i, slice text i cfg.closer.length ≠ cfg.closer)
    (he : cfg.esc ≠ [] → ∀ i, slice text i cfg.esc.length ≠ cfg.esc) :
    ∀ fuel st, st.current = text → (formatLoop cfg p fuel st).current = text := by
  intro fuel
  induction fuel with
  | zero => intro st hcur; exact hcur
  | succ n ih =>
    intro st hcur
    by_cases hlt : st.index < st.current.length
    · have h1 : ¬(cfg.esc ≠ [] ∧ slice st.current st.index cfg.esc.length = cfg.esc) := by
        rintro ⟨hne, hs⟩
        rw [hcur] at hs
        exact he hne _ hs
      have h2 : ¬(slice st.current st.index cfg.opener.length = cfg.opener ∧
          ¬(cfg.opener = cfg.closer ∧ st.stack ≠ [])) := by
        rintro ⟨hs, -⟩
        rw [hcur] at hs
        exact ho _ hs
      have h3 : ¬ slice st.current st.index cfg.closer.length = cfg.closer := by
        intro hs
        rw [hcur] at hs
        exact hc _ hs
      rw [formatLoop_other cfg p n st hlt h1 h2 h3]
      exact ih _ hcur
    · rw [formatLoop_halt _ _ _ _ hlt]
      exact hcur

/-- The memoization invariant: no raw body is traced twice, and every traced
body has a cache entry. -/
def TraceInv (st : ScanState) : Prop :=
  (st.trace.map Prod.fst).Nodup ∧
  ∀ b ∈ st.trace.map Prod.fst, (st.cache.lookup b).isSome = true

theorem formatLoop_traceInv (cfg : Config) (p : Resolver) :
    ∀ fuel st, TraceInv st → TraceInv (formatLoop cfg p fuel st) := by
  intro fuel
  induction fuel with
  | zero => intro st h; exact h
  | succ n ih =>
    intro st h
    by_cases hlt : st.index < st.current.length
    case neg => rw [formatLoop_halt _ _ _ _ hlt]; exact h
    case pos =>
      by_cases h1 : cfg.esc ≠ [] ∧ slice st.current st.index cfg.esc.length = cfg.esc
      · cases hpe : st.prevEscape
        · rw [formatLoop_esc_set cfg p n st hlt h1 hpe]; exact ih _ h
        · rw [formatLoop_esc_collapse cfg p n st hlt h1 hpe]; exact ih _ h
      · by_cases h2 : slice st.current st.index cfg.opener.length = cfg.opener ∧
            ¬(cfg.opener = cfg.closer ∧ st.stack ≠ [])
        · cases hpe : st.prevEscape
          · rw [formatLoop_push cfg p n st hlt h1 h2 hpe]; exact ih _ h
          · rw [formatLoop_open_escaped cfg p n st hlt h1 h2 hpe]; exact ih _ h
        · by_cases h3 : slice st.current st.index cfg.closer.length = cfg.closer
          · cases hpe : st.prevEscape
            · rcases hstk : st.stack with _ | ⟨oI, rest⟩
              · rw [formatLoop_close_literal cfg p n st hlt h1 h2 h3 hpe hstk]
                exact ih _ h
              · rcases hlook : st.cache.lookup (slice st.current (oI + cfg.opener.length)
                    (st.index - (oI + cfg.opener.length))) with _ | repl
                · rw [formatLoop_close_pop_miss cfg p n st oI rest _ _ hlt h1 h2 h3 hpe hstk
                    rfl hlook rfl]
                  apply ih
                  obtain ⟨hnd, hmem⟩ := h
                  constructor
                  · simp only [List.map_append, List.map_cons, List.map_nil]
                    rw [List.nodup_append]
                    refine ⟨hnd, List.nodup_singleton _, ?_⟩
                    intro b hb hb2
                    simp only [List.mem_singleton] at hb2
                    subst hb2
                    have hsome := hmem _ hb
                    rw [hlook] at hsome
                    simp at hsome
                  · intro b hb
                    simp only [List.map_append, List.map_cons, List.map_nil,
                      List.mem_append, List.mem_singleton] at hb
                    rcases hb with hb | hb
                    · by_cases hbq : b = slice st.current (oI + cfg.opener.length)
                          (st.index - (oI + cfg.opener.length))
                      · subst hbq
                        simp [List.lookup]
                      · simp only [List.lookup, beq_eq_false_iff_ne.mpr hbq]
                        exact hmem b hb
                    · subst hb
                      simp [List.lookup]
                · rw [formatLoop_close_pop_hit cfg p n st oI rest _ repl hlt h1 h2 h3 hpe hstk
                    rfl hlook]
                  exact ih _ h
            · rw [formatLoop_close_escaped cfg p n st hlt h1 h2 h3 hpe]
              exact ih _ h
          · rw [formatLoop_other cfg p n st hlt h1 h2 h3]
            exact ih _ h

/-- The same-token configuration `Formatter('|', '|')` (default escape). -/
def pipeConfig : Config :=
  { opener := ['|'], closer := ['|'], escape := some ['\\'] }

/-! ### Claims -/

/-- C2: the dispatch operation `Formatter.process` is claimed to return the
result of the first resolver whose pattern is absent or matches.  The code
instead evaluates `ph.func(name, depth)` (line 103), but the resolver
callable is stored in the `process` attribute (line 88) and no code ever
assigns `func`, so the first match raises `AttributeError`; only the
no-match path ("no value", `None`) behaves as claimed. -/
theorem c2_dispatch_first_match_raises :
    process [mkPlaceholder none (fun _ _ => some ['v'])] ['x'] 0 =
      PyResult.attributeError ∧
    process [mkPlaceholder (some fun _ => false) (fun _ _ => some ['v'])] ['x'] 0 =
      PyResult.ok none :=
  ⟨rfl, rfl⟩

/-- C3: on the escaped-escape input `\\\\{name}` the code returns a single
literal escape followed by the still-delimited placeholder text, and the
resolver is never invoked (empty trace), for every resolver: after the
escape pair is collapsed the cursor advance skips the opener character, so
the placeholder is never recognised - contradicting the claim that the
placeholder is resolved. -/
theorem c3_escaped_escape_code_result (p : Resolver) :
    formatTrace defaultConfig p "\\\\\x7bname\x7d".data = ("\\\x7bname\x7d".data, []) :=
  rfl

/-- C4 counterexample: the input `\\\\` (two escape characters) contains no
occurrence of the default opener or closer, yet `format` does not return it
unchanged - the escaped escape collapses to a single backslash. -/
theorem c4_counterexample :
    occursIn defaultConfig.opener "\\\\".data = false ∧
    occursIn defaultConfig.closer "\\\\".data = false ∧
    formatStr defaultConfig (fun _ _ => none) "\\\\" ≠ "\\\\" := by
  decide

/-- C4 (amended): for every text containing no occurrence of the opener, the
closer, or the escape token, `format` returns the text unchanged. -/
theorem c4_plain_text_identity (cfg : Config) (p : Resolver) (text : List Char)
    (ho : occursIn cfg.opener text = false)
    (hc : occursIn cfg.closer text = false)
    (he : cfg.esc ≠ [] → occursIn cfg.esc text = false) :
    format cfg p text = text :=
  formatLoop_keeps cfg p text (not_occursIn ho) (not_occursIn hc)
    (fun hne => not_occursIn (he hne)) (formatFuel text) (initState text) rfl

/-- C4 witness: the identity at a concrete plain text. -/
theorem c4_plain_text_identity_witness :
    format defaultConfig (fun _ _ => none) "hello".data = "hello".data :=
  c4_plain_text_identity defaultConfig (fun _ _ => none) "hello".data
    (by decide) (by decide) (fun _ => by decide)

/-- C5: within one `format` call the resolver is invoked exactly once per
distinct raw placeholder body: the ordered invocation trace never repeats a
body (repeated occurrences are served from the per-call cache). -/
theorem c5_memoized_single_invocation (cfg : Config) (p : Resolver) (text : List Char) :
    ((formatTrace cfg p text).2.map Prod.fst).Nodup :=
  (formatLoop_traceInv cfg p (formatFuel text) (initState text)
    ⟨List.nodup_nil, by intro b hb; simp [initState] at hb⟩).1

/-- C8: format never fails (it is a total function here, and the scan always
runs to completion by `formatLoop_complete`); the unbalanced inputs `{a` and
`a}` are returned unchanged for every resolver. -/
theorem c8_unbalanced_tolerated (p : Resolver) :
    formatStr defaultConfig p "\x7ba" = "\x7ba" ∧
    formatStr defaultConfig p "a\x7d" = "a\x7d" :=
  ⟨rfl, rfl⟩

/-- C9: construction fails with a `ValueError` exactly when the opener is
empty, the closer is empty, the escape is given but empty, or the escape
equals the opener or the closer. -/
theorem c9_construction_validation (opener closer : List Char)
    (escape : Option (List Char)) :
    initError opener closer escape = none ↔
      opener ≠ [] ∧ closer ≠ [] ∧ escape ≠ some [] ∧
      escape ≠ some opener ∧ escape ≠ some closer := by
  unfold initError
  split_ifs with h1 h2 h3 h4 <;> simp_all
  tauto

/-- C1: on `{outer:{inner}}` the engine resolves `inner` first (at depth 1),
and the resolver for the outer placeholder receives exactly the raw body
`outer:` followed by the inner placeholder's replacement text - the original
inner delimiters are gone, for every resolver. -/
theorem c1_nested_inner_first (p : Resolver) :
    (formatTrace defaultConfig p "\x7bouter:\x7binner\x7d\x7d".data).2 =
      [("inner".data, 1),
       ("outer:".data ++ replOf defaultConfig "inner".data (p "inner".data 1), 0)] := by
  have e1 : formatLoop defaultConfig p (formatFuel "\x7bouter:\x7binner\x7d\x7d".data)
      (initState "\x7bouter:\x7binner\x7d\x7d".data) =
      formatLoop defaultConfig p 17
        { current := ['\x7b', 'o', 'u', 't', 'e', 'r', ':'] ++
            (replOf defaultConfig ['i', 'n', 'n', 'e', 'r']
              (p ['i', 'n', 'n', 'e', 'r'] 1) ++ ['\x7d']),
          prevEscape := false, stack := [0],
          cache := [(['i', 'n', 'n', 'e', 'r'],
            replOf defaultConfig ['i', 'n', 'n', 'e', 'r'] (p ['i', 'n', 'n', 'e', 'r'] 1))],
          trace := [(['i', 'n', 'n', 'e', 'r'], 1)],
          index := 7 + (replOf defaultConfig ['i', 'n', 'n', 'e', 'r']
            (p ['i', 'n', 'n', 'e', 'r'] 1)).length } := rfl
  have e2 := formatLoop_pop_at defaultConfig p 16
    (['\x7b', 'o', 'u', 't', 'e', 'r', ':'] ++
      (replOf defaultConfig ['i', 'n', 'n', 'e', 'r'] (p ['i', 'n', 'n', 'e', 'r'] 1) ++ ['\x7d']))
    []
    (['o', 'u', 't', 'e', 'r', ':'] ++
      replOf defaultConfig ['i', 'n', 'n', 'e', 'r'] (p ['i', 'n', 'n', 'e', 'r'] 1))
    [] []
    [(['i', 'n', 'n', 'e', 'r'],
      replOf defaultConfig ['i', 'n', 'n', 'e', 'r'] (p ['i', 'n', 'n', 'e', 'r'] 1))]
    [(['i', 'n', 'n', 'e', 'r'], 1)]
    (7 + (replOf defaultConfig ['i', 'n', 'n', 'e', 'r'] (p ['i', 'n', 'n', 'e', 'r'] 1)).length)
    (by simp [defaultConfig])
    (by simp [defaultConfig]; omega)
    (by decide) (by decide) (by decide) rfl
  rw [show (formatTrace defaultConfig p "\x7bouter:\x7binner\x7d\x7d".data).2 =
      (formatLoop defaultConfig p (formatFuel "\x7bouter:\x7binner\x7d\x7d".data)
        (initState "\x7bouter:\x7binner\x7d\x7d".data)).trace from rfl,
    e1.trans e2, formatLoop_trace_halt]
  · show _ = [(['i', 'n', 'n', 'e', 'r'], 1),
      (['o', 'u', 't', 'e', 'r', ':'] ++
        replOf defaultConfig ['i', 'n', 'n', 'e', 'r'] (p ['i', 'n', 'n', 'e', 'r'] 1), 0)]
    simp
  · simp

/-- C6: on `{a:{b:{c}}}` the resolver is invoked bottom-up with depths 2, 1
and 0: first on `c` at depth 2, then on `b:` followed by the replacement of
`c` at depth 1, then on `a:` followed by that replacement at depth 0. -/
theorem c6_depth_reporting (p : Resolver) :
    (formatTrace defaultConfig p "\x7ba:\x7bb:\x7bc\x7d\x7d\x7d".data).2 =
      [(['c'], 2),
       ("b:".data ++ replOf defaultConfig ['c'] (p ['c'] 2), 1),
       ("a:".data ++ replOf defaultConfig ("b:".data ++ replOf defaultConfig ['c'] (p ['c'] 2))
          (p ("b:".data ++ replOf defaultConfig ['c'] (p ['c'] 2)) 1), 0)] := by
  have e1 : formatLoop defaultConfig p (formatFuel "\x7ba:\x7bb:\x7bc\x7d\x7d\x7d".data)
      (initState "\x7ba:\x7bb:\x7bc\x7d\x7d\x7d".data) =
      formatLoop defaultConfig p 14
        { current := ['\x7b', 'a', ':', '\x7b', 'b', ':'] ++
            (replOf defaultConfig ['c'] (p ['c'] 2) ++ ['\x7d', '\x7d']),
          prevEscape := false, stack := [3, 0],
          cache := [(['c'], replOf defaultConfig ['c'] (p ['c'] 2))],
          trace := [(['c'], 2)],
          index := 6 + (replOf defaultConfig ['c'] (p ['c'] 2)).length } := rfl
  have e2 := formatLoop_pop_at defaultConfig p 13
    (['\x7b', 'a', ':', '\x7b', 'b', ':'] ++
      (replOf defaultConfig ['c'] (p ['c'] 2) ++ ['\x7d', '\x7d']))
    ['\x7b', 'a', ':']
    (['b', ':'] ++ replOf defaultConfig ['c'] (p ['c'] 2))
    ['\x7d'] [0]
    [(['c'], replOf defaultConfig ['c'] (p ['c'] 2))]
    [(['c'], 2)]
    (6 + (replOf defaultConfig ['c'] (p ['c'] 2)).length)
    (by simp [defaultConfig])
    (by simp [defaultConfig]; omega)
    (by decide) (by decide) (by decide) rfl
  have e3 := formatLoop_pop_at defaultConfig p 12
    (['\x7b', 'a', ':'] ++
      replOf defaultConfig (['b', ':'] ++ replOf defaultConfig ['c'] (p ['c'] 2))
        (p (['b', ':'] ++ replOf defaultConfig ['c'] (p ['c'] 2)) 1) ++ ['\x7d'])
    []
    (['a', ':'] ++
      replOf defaultConfig (['b', ':'] ++ replOf defaultConfig ['c'] (p ['c'] 2))
        (p (['b', ':'] ++ replOf defaultConfig ['c'] (p ['c'] 2)) 1))
    [] []
    [((['b', ':'] ++ replOf defaultConfig ['c'] (p ['c'] 2)),
      replOf defaultConfig (['b', ':'] ++ replOf defaultConfig ['c'] (p ['c'] 2))
        (p (['b', ':'] ++ replOf defaultConfig ['c'] (p ['c'] 2)) 1)),
     (['c'], replOf defaultConfig ['c'] (p ['c'] 2))]
    [(['c'], 2), ((['b', ':'] ++ replOf defaultConfig ['c'] (p ['c'] 2)), 1)]
    (3 + (replOf defaultConfig (['b', ':'] ++ replOf defaultConfig ['c'] (p ['c'] 2))
        (p (['b', ':'] ++ replOf defaultConfig ['c'] (p ['c'] 2)) 1)).length)
    (by simp [defaultConfig, List.append_assoc])
    (by simp [defaultConfig]; omega)
    (by decide) (by decide) (by decide) rfl
  rw [show (formatTrace defaultConfig p "\x7ba:\x7bb:\x7bc\x7d\x7d\x7d".data).2 =
      (formatLoop defaultConfig p (formatFuel "\x7ba:\x7bb:\x7bc\x7d\x7d\x7d".data)
        (initState "\x7ba:\x7bb:\x7bc\x7d\x7d\x7d".data)).trace from rfl,
    (e1.trans e2).trans e3, formatLoop_trace_halt]
  · show _ = [(['c'], 2),
      (['b', ':'] ++ replOf defaultConfig ['c'] (p ['c'] 2), 1),
      (['a', ':'] ++ replOf defaultConfig (['b', ':'] ++ replOf defaultConfig ['c'] (p ['c'] 2))
          (p (['b', ':'] ++ replOf defaultConfig ['c'] (p ['c'] 2)) 1), 0)]
    simp
  · simp

/-- C7: with identical opener and closer `|`, `format("|name|")` resolves the
body `name` at depth 0, and in `|a|b|` the second `|` closes the first
placeholder (body `a`) instead of opening a nested one; the trailing `b|`
stays literal with its `|` pushed as a new opener that never closes. -/
theorem c7_same_token_delimiters (p : Resolver) :
    formatTrace pipeConfig p "|name|".data =
      (replOf pipeConfig "name".data (p "name".data 0),
       [("name".data, 0)]) ∧
    formatTrace pipeConfig p "|a|b|".data =
      (replOf pipeConfig ['a'] (p ['a'] 0) ++ "b|".data,
       [(['a'], 0)]) := by
  constructor
  · show formatTrace pipeConfig p "|name|".data =
      (replOf pipeConfig ['n', 'a', 'm', 'e'] (p ['n', 'a', 'm', 'e'] 0),
       [(['n', 'a', 'm', 'e'], 0)])
    have e1 : formatLoop pipeConfig p (formatFuel "|name|".data)
        (initState "|name|".data) =
        formatLoop pipeConfig p 7
          { current := replOf pipeConfig ['n', 'a', 'm', 'e'] (p ['n', 'a', 'm', 'e'] 0) ++ [],
            prevEscape := false, stack := [],
            cache := [(['n', 'a', 'm', 'e'],
              replOf pipeConfig ['n', 'a', 'm', 'e'] (p ['n', 'a', 'm', 'e'] 0))],
            trace := [(['n', 'a', 'm', 'e'], 0)],
            index := 0 + (replOf pipeConfig ['n', 'a', 'm', 'e'] (p ['n', 'a', 'm', 'e'] 0)).length } :=
      rfl
    rw [show formatTrace pipeConfig p "|name|".data =
        ((formatLoop pipeConfig p (formatFuel "|name|".data) (initState "|name|".data)).current,
         (formatLoop pipeConfig p (formatFuel "|name|".data) (initState "|name|".data)).trace)
        from rfl, e1, formatLoop_halt_at]
    · simp
    · simp
  · have e1 : formatLoop pipeConfig p (formatFuel "|a|b|".data)
        (initState "|a|b|".data) =
        formatLoop pipeConfig p 8
          { current := replOf pipeConfig ['a'] (p ['a'] 0) ++ ['b', '|'],
            prevEscape := false, stack := [],
            cache := [(['a'], replOf pipeConfig ['a'] (p ['a'] 0))],
            trace := [(['a'], 0)],
            index := 0 + (replOf pipeConfig ['a'] (p ['a'] 0)).length } := rfl
    have e2 := formatLoop_skip_at pipeConfig p 7
      (replOf pipeConfig ['a'] (p ['a'] 0) ++ ['b', '|'])
      (replOf pipeConfig ['a'] (p ['a'] 0)) 'b' ['|'] false []
      [(['a'], replOf pipeConfig ['a'] (p ['a'] 0))]
      [(['a'], 0)]
      (0 + (replOf pipeConfig ['a'] (p ['a'] 0)).length)
      rfl (by omega) (by decide) (by decide) (by decide)
    have e3 := formatLoop_push_at pipeConfig p 6
      (replOf pipeConfig ['a'] (p ['a'] 0) ++ ['b', '|'])
      (replOf pipeConfig ['a'] (p ['a'] 0) ++ ['b']) ['|'] []
      [(['a'], replOf pipeConfig ['a'] (p ['a'] 0))]
      [(['a'], 0)]
      (0 + (replOf pipeConfig ['a'] (p ['a'] 0)).length + 1)
      (by simp) (by simp) (by decide) (by decide) (by decide) (by decide)
    rw [show formatTrace pipeConfig p "|a|b|".data =
        ((formatLoop pipeConfig p (formatFuel "|a|b|".data) (initState "|a|b|".data)).current,
         (formatLoop pipeConfig p (formatFuel "|a|b|".data) (initState "|a|b|".data)).trace)
        from rfl, (e1.trans e2).trans e3, formatLoop_halt_at]
    simp [pipeConfig]

/-- C10 counterexample: with an empty opener, instantiating the base
`Formatter` raises `ValueError` from the delimiter validation, not
`AttributeError`, refuting "AttributeError for every argument combination". -/
theorem c10_counterexample :
    formatterInit none [] ['\x7d'] (some ['\\']) =
      InitResult.valueError "opener should be a non-empty string" ∧
    InitResult.valueError "opener should be a non-empty string" ≠
      InitResult.attributeError :=
  ⟨rfl, fun h => nomatch h⟩

/-- C10 (amended): instantiating the base `Formatter` class directly never
succeeds: it raises `AttributeError` (missing `__placeholder_items__`)
whenever the delimiter configuration is valid, and `ValueError` otherwise. -/
theorem c10_base_formatter_unconstructible (opener closer : List Char)
    (escape : Option (List Char)) :
    (∀ phs, formatterInit none opener closer escape ≠ InitResult.ok phs) ∧
    (initError opener closer escape = none →
      formatterInit none opener closer escape = InitResult.attributeError) := by
  constructor
  · intro phs h
    unfold formatterInit at h
    rcases he : initError opener closer escape with _ | msg
    · rw [he] at h
      exact nomatch h
    · rw [he] at h
      exact nomatch h
  · intro he
    simp only [formatterInit, he]

/-- C10 witness: at the valid default delimiters the base class raises
`AttributeError`. -/
theorem c10_base_formatter_unconstructible_witness :
    formatterInit none ['\x7b'] ['\x7d'] (some ['\\']) = InitResult.attributeError :=
  (c10_base_formatter_unconstructible ['\x7b'] ['\x7d'] (some ['\\'])).2 rfl

end Weneda
